import Mathlib

/-!
Verification of the folder-ingestion connector
(`backend/onyx/connectors/folder/connector.py`).

The Python source is shallowly embedded as executable Lean definitions:

* pure path helpers (`os.path.normpath`, `os.path.join`, `os.path.basename`,
  `str.split`) are translated character by character for the POSIX separator
  `/` (the value of `os.sep` on the target platform);
* the filesystem seen by `os.walk` is a finite forest (`FSForest`); a
  directory node carries a `bad` flag meaning "iterating this directory
  raises an unexpected I/O error", which models a traversal exception
  surfacing from the walk at the point the directory is reached;
* the external collaborators (extension registry, file store, extraction)
  are oracle functions collected in `Env`; fallible calls return `Option`;
* `logger` calls are accumulated in an explicit `List LogEntry`;
* a raised exception is an `Except.error` value threaded to the caller.
-/

/-! ## String and path helpers (POSIX, `os.sep = "/"`) -/

/-- Split a list of characters at every occurrence of `sep`, keeping empty
groups, exactly like Python's `str.split(sep)` for a one-character
separator: `"".split("/") = [""]`, `"/".split("/") = ["", ""]`. -/
def splitCharList (sep : Char) : List Char → List (List Char)
  | [] => [[]]
  | c :: rest =>
      if c = sep then [] :: splitCharList sep rest
      else
        match splitCharList sep rest with
        | [] => [[c]]
        | g :: gs => (c :: g) :: gs

/-- Python `path.split("/")` (also `normalized_path.split(os.sep)`). -/
def splitPath (s : String) : List String :=
  (splitCharList '/' s.data).map String.mk

/-- Python `s.startswith(".")`. -/
def startsWithDot (s : String) : Bool :=
  match s.data with
  | [] => false
  | c :: _ => c = '.'

/-- Python `s.startswith("/")`. -/
def startsWithSlash (s : String) : Bool :=
  match s.data with
  | [] => false
  | c :: _ => c = '/'

/-- Python `s.endswith("/")`. -/
def endsWithSlash (s : String) : Bool :=
  match s.data.getLast? with
  | some c => c = '/'
  | none => false

/-- Python `"/".join(comps)`. -/
def joinSep (sep : String) : List String → String
  | [] => ""
  | [x] => x
  | x :: y :: xs => x ++ sep ++ joinSep sep (y :: xs)

/-- The `initial_slashes` computation of `posixpath.normpath`: POSIX keeps
one or two leading slashes but collapses three or more to one. -/
def countInitialSlashes (path : String) : Nat :=
  match path.data with
  | '/' :: '/' :: '/' :: _ => 1
  | '/' :: '/' :: _ => 2
  | '/' :: _ => 1
  | _ => 0

/-- Python `"/" * n`. -/
def slashes (n : Nat) : String :=
  String.mk (List.replicate n '/')

/-- `os.path.normpath` for POSIX paths (`posixpath.normpath`): collapse
repeated separators, drop `.` components, and resolve `..` components
lexically, preserving leading `..`s of relative paths and one or two
initial slashes of absolute paths. -/
def normpath (path : String) : String :=
  if path = "" then "."
  else
    let initial_slashes := countInitialSlashes path
    let comps := splitPath path
    let new_comps := comps.foldl
      (fun new_comps comp =>
        if comp = "" ∨ comp = "." then new_comps
        else if comp ≠ ".."
            ∨ (initial_slashes = 0 ∧ new_comps = [])
            ∨ new_comps.getLast? = some ".." then new_comps ++ [comp]
        else if new_comps ≠ [] then new_comps.dropLast
        else new_comps)
      []
    let joined := joinSep "/" new_comps
    let path2 := slashes initial_slashes ++ joined
    if path2 = "" then "." else path2

/-- `os.path.basename` for POSIX paths: everything after the last `/`. -/
def basename (p : String) : String :=
  (splitPath p).getLastD ""

/-- `os.path.join` for POSIX paths (two arguments). -/
def joinPath (a b : String) : String :=
  if startsWithSlash b then b
  else if a = "" ∨ endsWithSlash a then a ++ b
  else a ++ "/" ++ b

/-- `_should_process_file` from the connector: normalize the path and accept
it iff no `/`-separated segment of the normalized path starts with `.`
(skips hidden files and directories). -/
def _should_process_file (file_path : String) : Bool :=
  let normalized_path := normpath file_path
  !((splitPath normalized_path).any fun part => startsWithDot part)

/-- C2: for every path string, `_should_process_file` returns `false` when
some segment of the normalized path starts with the hidden marker `.`, and
returns `true` when no segment of the normalized path starts with `.`
(extension acceptance is checked separately by the external registry and is
not part of this filter). -/
theorem should_process_file_hidden_iff (file_path : String) :
    _should_process_file file_path = true ↔
      ∀ part ∈ splitPath (normpath file_path), startsWithDot part = false := by
  unfold _should_process_file
  simp only [Bool.not_eq_true', List.any_eq_false, Bool.not_eq_true]

theorem should_process_file_hidden_iff_witness :
    _should_process_file "docs/.hidden/notes.txt" = false
      ∧ _should_process_file "docs/visible/notes.txt" = true := by
  constructor
  · have h := should_process_file_hidden_iff "docs/.hidden/notes.txt"
    have hseg : ¬ ∀ part ∈ splitPath (normpath "docs/.hidden/notes.txt"),
        startsWithDot part = false := by decide
    cases hb : _should_process_file "docs/.hidden/notes.txt" with
    | false => rfl
    | true => exact absurd (h.mp hb) hseg
  · exact (should_process_file_hidden_iff "docs/visible/notes.txt").mpr (by decide)

/-! ## Filesystem model and `_scan_folder_recursively` -/

/-- One logger call; the constructor is the log level. -/
inductive LogEntry where
  | error (msg : String)
  | warning (msg : String)
  | info (msg : String)
  | debug (msg : String)
deriving Repr, DecidableEq

/-- A finite forest of filesystem entries, in `os.scandir` iteration order.
A directory's `bad` flag means that iterating this directory raises an
unexpected I/O error; the walk surfaces the exception when it reaches the
directory. -/
inductive FSForest where
  | nil
  | file (name : String) (rest : FSForest)
  | dir (name : String) (bad : Bool) (children : FSForest) (rest : FSForest)
deriving Repr, DecidableEq

/-- What the scanner's `folder_path` argument points at: nothing
(`os.path.exists` false), a non-directory (`os.path.isdir` false), or a
directory with its forest of entries. -/
inductive FSObject where
  | missing
  | notDir
  | root (bad : Bool) (children : FSForest)
deriving Repr, DecidableEq

/-- The body of the inner `for filename in filenames` loop of
`_scan_folder_recursively`, for one filename of the directory at `root`
(whose path relative to the scan root is `relDir`; `""` for the scan root
itself): skip hidden files, form `full_path = os.path.join(root, filename)`
and `relative_path = os.path.relpath(full_path, folder_path)`, apply
`_should_process_file` and the extension registry, and emit the pair.
Since `root` is always `folder_path` joined with the chain of scandir entry
names `relDir` (names contain no separator), `os.path.relpath` returns
exactly that chain extended with `filename`, which is how it is computed
here.  `extOk filename` is the external
`is_accepted_file_ext(get_file_ext(filename), OnyxExtensionType.All)`. -/
def fileStep (extOk : String → Bool) (root relDir filename : String) :
    List LogEntry × List (String × String) :=
  if startsWithDot filename then ([], [])
  else
    let full_path := joinPath root filename
    let relative_path := joinPath relDir filename
    if !(_should_process_file relative_path) then ([], [])
    else if !(extOk filename) then
      ([LogEntry.debug ("Skipping file '" ++ full_path ++ "' with unrecognized extension")], [])
    else ([], [(full_path, relative_path)])

/-- All file entries of one directory level, in order (`os.walk` lists the
directory's filenames before descending into subdirectories). -/
def dirFiles (extOk : String → Bool) (root relDir : String) :
    FSForest → List LogEntry × List (String × String)
  | .nil => ([], [])
  | .file name rest =>
      let r1 := fileStep extOk root relDir name
      let r2 := dirFiles extOk root relDir rest
      (r1.1 ++ r2.1, r1.2 ++ r2.2)
  | .dir _ _ _ rest => dirFiles extOk root relDir rest

/-- Sequence two walk results: logs concatenate; the first error aborts and
the file lists of skipped later steps are discarded (the exception
propagates immediately). -/
def combineWalk (a b : List LogEntry × Except String (List (String × String))) :
    List LogEntry × Except String (List (String × String)) :=
  match a with
  | (lg, Except.error e) => (lg, Except.error e)
  | (lg, Except.ok fs) =>
      match b with
      | (lg2, Except.error e) => (lg ++ lg2, Except.error e)
      | (lg2, Except.ok fs2) => (lg ++ lg2, Except.ok (fs ++ fs2))

/-- One directory of the walk, given the already-computed results for its
own filenames and for its (pruned) subdirectories: reaching a `bad`
directory raises before anything of it is processed. -/
def walkDirAux (root : String) (bad : Bool)
    (filesPart : List LogEntry × List (String × String))
    (subdirsPart : List LogEntry × Except String (List (String × String))) :
    List LogEntry × Except String (List (String × String)) :=
  if bad then ([], Except.error root)
  else combineWalk (filesPart.1, Except.ok filesPart.2) subdirsPart

/-- Descend into the subdirectories of one directory level, in order.
Hidden directories are pruned (`dirs[:] = [d for d in dirs if not
d.startswith(".")]`) before `os.walk` descends, so their contents are never
touched — not even their `bad` flag. -/
def walkSubdirs (extOk : String → Bool) (root relDir : String) :
    FSForest → List LogEntry × Except String (List (String × String))
  | .nil => ([], Except.ok [])
  | .file _ rest => walkSubdirs extOk root relDir rest
  | .dir name bad children rest =>
      if startsWithDot name then walkSubdirs extOk root relDir rest
      else
        let root2 := joinPath root name
        let rel2 := joinPath relDir name
        combineWalk
          (walkDirAux root2 bad (dirFiles extOk root2 rel2 children)
            (walkSubdirs extOk root2 rel2 children))
          (walkSubdirs extOk root relDir rest)

/-- The whole `os.walk(folder_path)` together with the loop body of
`_scan_folder_recursively` (the part inside the `try`). -/
def walkDir (extOk : String → Bool) (root relDir : String) (bad : Bool)
    (children : FSForest) : List LogEntry × Except String (List (String × String)) :=
  walkDirAux root bad (dirFiles extOk root relDir children)
    (walkSubdirs extOk root relDir children)

/-- `_scan_folder_recursively` from the connector: a missing or
non-directory `folder_path` logs an error and returns the empty list; an
exception raised during the walk is logged and re-raised (`raise` after
`logger.error`). -/
def _scan_folder_recursively (extOk : String → Bool) (folder_path : String)
    (fs : FSObject) : List LogEntry × Except String (List (String × String)) :=
  match fs with
  | FSObject.missing =>
      ([LogEntry.error ("Folder path does not exist: " ++ folder_path)], Except.ok [])
  | FSObject.notDir =>
      ([LogEntry.error ("Path is not a directory: " ++ folder_path)], Except.ok [])
  | FSObject.root bad children =>
      match walkDir extOk folder_path "" bad children with
      | (lg, Except.error e) =>
          (lg ++ [LogEntry.error ("Error scanning folder '" ++ folder_path ++ "'")],
            Except.error e)
      | (lg, Except.ok files) =>
          (lg ++ [LogEntry.info ("Scanned folder '" ++ folder_path ++ "'")],
            Except.ok files)

/-- Is there a `bad` directory the walk can reach, i.e. one that is not
under a hidden (pruned) directory? -/
def hasBadDir : FSForest → Bool
  | .nil => false
  | .file _ rest => hasBadDir rest
  | .dir name bad children rest =>
      if startsWithDot name then hasBadDir rest
      else (bad || hasBadDir children) || hasBadDir rest

/-- Remove every hidden directory (and with it its whole subtree) from a
forest. -/
def pruneHidden : FSForest → FSForest
  | .nil => .nil
  | .file name rest => .file name (pruneHidden rest)
  | .dir name bad children rest =>
      if startsWithDot name then pruneHidden rest
      else .dir name bad (pruneHidden children) (pruneHidden rest)

/-! ## Scanner lemmas -/

theorem walkSubdirs_error (extOk : String → Bool) :
    ∀ (f : FSForest) (root relDir : String), hasBadDir f = true →
      ∃ lg e, walkSubdirs extOk root relDir f = (lg, Except.error e) := by
  intro f
  induction f with
  | nil => intro root relDir h; simp [hasBadDir] at h
  | file name rest ih =>
      intro root relDir h
      rw [hasBadDir] at h
      simpa [walkSubdirs] using ih root relDir h
  | dir name bad children rest ihc ihr =>
      intro root relDir h
      rw [hasBadDir] at h
      by_cases hdot : startsWithDot name = true
      · rw [if_pos hdot] at h
        simpa [walkSubdirs, hdot] using ihr root relDir h
      · rw [if_neg hdot] at h
        cases hbad : bad with
        | true =>
            simp only [walkSubdirs, hdot]
            simp [walkDirAux, combineWalk]
        | false =>
            rw [hbad] at h
            simp only [Bool.false_or, Bool.or_eq_true] at h
            rcases h with hc | hr
            · obtain ⟨lg, e, hce⟩ :=
                ihc (joinPath root name) (joinPath relDir name) hc
              simp only [walkSubdirs, hdot]
              simp [walkDirAux, hce, combineWalk]
            · obtain ⟨lg, e, hre⟩ := ihr root relDir hr
              rcases hsub : walkSubdirs extOk (joinPath root name)
                  (joinPath relDir name) children with ⟨lgc, outc⟩
              cases outc with
              | error e2 =>
                  simp only [walkSubdirs, hdot]
                  simp [walkDirAux, hsub, combineWalk]
              | ok fsc =>
                  simp only [walkSubdirs, hdot]
                  simp [walkDirAux, hsub, hre, combineWalk]

theorem walkSubdirs_ok (extOk : String → Bool) :
    ∀ (f : FSForest) (root relDir : String), hasBadDir f = false →
      ∃ lg files, walkSubdirs extOk root relDir f = (lg, Except.ok files) := by
  intro f
  induction f with
  | nil => intro root relDir _; exact ⟨[], [], rfl⟩
  | file name rest ih =>
      intro root relDir h
      rw [hasBadDir] at h
      simpa [walkSubdirs] using ih root relDir h
  | dir name bad children rest ihc ihr =>
      intro root relDir h
      rw [hasBadDir] at h
      by_cases hdot : startsWithDot name = true
      · rw [if_pos hdot] at h
        simpa [walkSubdirs, hdot] using ihr root relDir h
      · rw [if_neg hdot] at h
        simp only [Bool.or_eq_false_iff] at h
        obtain ⟨⟨hbad, hc⟩, hr⟩ := h
        obtain ⟨lgc, filesc, hce⟩ :=
          ihc (joinPath root name) (joinPath relDir name) hc
        obtain ⟨lgr, filesr, hre⟩ := ihr root relDir hr
        rw [hbad]
        simp only [walkSubdirs, hdot]
        simp [walkDirAux, hce, hre, combineWalk]

theorem dirFiles_prune (extOk : String → Bool) :
    ∀ (f : FSForest) (root relDir : String),
      dirFiles extOk root relDir (pruneHidden f) = dirFiles extOk root relDir f := by
  intro f
  induction f with
  | nil => intro root relDir; rfl
  | file name rest ih =>
      intro root relDir
      simp [pruneHidden, dirFiles, ih root relDir]
  | dir name bad children rest ihc ihr =>
      intro root relDir
      by_cases hdot : startsWithDot name = true
      · simp [pruneHidden, hdot, dirFiles, ihr root relDir]
      · simp [pruneHidden, hdot, dirFiles, ihr root relDir]

theorem walkSubdirs_prune (extOk : String → Bool) :
    ∀ (f : FSForest) (root relDir : String),
      walkSubdirs extOk root relDir (pruneHidden f) = walkSubdirs extOk root relDir f := by
  intro f
  induction f with
  | nil => intro root relDir; rfl
  | file name rest ih =>
      intro root relDir
      simp [pruneHidden, walkSubdirs, ih root relDir]
  | dir name bad children rest ihc ihr =>
      intro root relDir
      by_cases hdot : startsWithDot name = true
      · simp [pruneHidden, hdot, walkSubdirs, ihr root relDir]
      · simp [pruneHidden, hdot, walkSubdirs,
          dirFiles_prune extOk children,
          ihc (joinPath root name) (joinPath relDir name), ihr root relDir]

/-- C3: for a `folder_path` that does not exist, or exists but is not a
directory, `_scan_folder_recursively` logs an error and returns the empty
file list without raising (the outcome is `Except.ok []`, not an error). -/
theorem scan_missing_or_notdir (extOk : String → Bool) (folder_path : String)
    (fs : FSObject) (h : fs = FSObject.missing ∨ fs = FSObject.notDir) :
    ∃ msg, _scan_folder_recursively extOk folder_path fs
      = ([LogEntry.error msg], Except.ok []) := by
  rcases h with h | h <;> subst h
  · exact ⟨"Folder path does not exist: " ++ folder_path, rfl⟩
  · exact ⟨"Path is not a directory: " ++ folder_path, rfl⟩

theorem scan_missing_or_notdir_witness :
    (FSObject.missing = FSObject.missing ∨ FSObject.missing = FSObject.notDir) ∧
    ∃ msg, _scan_folder_recursively (fun _ => true) "/data" FSObject.missing
      = ([LogEntry.error msg], Except.ok []) :=
  ⟨Or.inl rfl,
    scan_missing_or_notdir (fun _ => true) "/data" FSObject.missing (Or.inl rfl)⟩

/-- C4: if an unexpected error is raised during the directory walk (the
root-path checks passed, so the target is a directory, and either iterating
the root itself or some reachable, non-pruned directory raises), the
exception propagates out of `_scan_folder_recursively` as the `Except.error`
outcome; the scanner never returns a (partial) file list in that case. -/
theorem scan_error_propagates (extOk : String → Bool) (folder_path : String)
    (bad : Bool) (children : FSForest)
    (h : bad = true ∨ hasBadDir children = true) :
    (∃ e, (_scan_folder_recursively extOk folder_path
        (FSObject.root bad children)).2 = Except.error e) ∧
    ∀ files, (_scan_folder_recursively extOk folder_path
        (FSObject.root bad children)).2 ≠ Except.ok files := by
  have hwalk : ∃ lg e, walkDir extOk folder_path "" bad children
      = (lg, Except.error e) := by
    cases hbad : bad with
    | true => simp [walkDir, walkDirAux]
    | false =>
        rcases h with h | h
        · rw [hbad] at h; exact absurd h (by simp)
        · obtain ⟨lg, e, he⟩ := walkSubdirs_error extOk children folder_path "" h
          simp [walkDir, walkDirAux, he, combineWalk]
  obtain ⟨lg, e, he⟩ := hwalk
  have hscan : (_scan_folder_recursively extOk folder_path
      (FSObject.root bad children)).2 = Except.error e := by
    simp [_scan_folder_recursively, he]
  exact ⟨⟨e, hscan⟩, fun files hcontra => by
    rw [hscan] at hcontra; exact Except.noConfusion hcontra⟩

theorem scan_error_propagates_witness :
    (false = true ∨ hasBadDir (FSForest.dir "sub" true FSForest.nil FSForest.nil) = true) ∧
    ((∃ e, (_scan_folder_recursively (fun _ => true) "/data"
        (FSObject.root false (FSForest.dir "sub" true FSForest.nil FSForest.nil))).2
          = Except.error e) ∧
      ∀ files, (_scan_folder_recursively (fun _ => true) "/data"
        (FSObject.root false (FSForest.dir "sub" true FSForest.nil FSForest.nil))).2
          ≠ Except.ok files) :=
  ⟨Or.inr (by decide),
    scan_error_propagates (fun _ => true) "/data" false
      (FSForest.dir "sub" true FSForest.nil FSForest.nil) (Or.inr (by decide))⟩

/-- C7: the walk never descends into a hidden directory: as long as every
reachable (non-pruned) directory is iterable — `hasBadDir children = false`,
which still allows arbitrarily erroring directories anywhere below hidden
ones — the scan succeeds without raising, and its entire result (files and
logs) is unchanged when every hidden directory together with its whole
subtree is deleted from the tree beforehand, so no file under a hidden
subtree is ever visited or emitted. -/
theorem scan_prunes_hidden (extOk : String → Bool) (folder_path : String)
    (children : FSForest) (h : hasBadDir children = false) :
    (∃ lg files, _scan_folder_recursively extOk folder_path
        (FSObject.root false children) = (lg, Except.ok files)) ∧
    _scan_folder_recursively extOk folder_path (FSObject.root false children)
      = _scan_folder_recursively extOk folder_path
          (FSObject.root false (pruneHidden children)) := by
  constructor
  · obtain ⟨lg, files, hok⟩ := walkSubdirs_ok extOk children folder_path "" h
    simp [_scan_folder_recursively, walkDir, walkDirAux, hok, combineWalk]
  · have hw : walkDir extOk folder_path "" false (pruneHidden children)
        = walkDir extOk folder_path "" false children := by
      simp [walkDir, walkDirAux, dirFiles_prune extOk children,
        walkSubdirs_prune extOk children]
    simp [_scan_folder_recursively, hw]

theorem scan_prunes_hidden_witness :
    hasBadDir (FSForest.dir ".secret" false
        (FSForest.dir "x" true FSForest.nil FSForest.nil)
        (FSForest.file "a.txt" FSForest.nil)) = false ∧
    ((∃ lg files, _scan_folder_recursively (fun _ => true) "/data"
        (FSObject.root false (FSForest.dir ".secret" false
          (FSForest.dir "x" true FSForest.nil FSForest.nil)
          (FSForest.file "a.txt" FSForest.nil))) = (lg, Except.ok files)) ∧
      _scan_folder_recursively (fun _ => true) "/data"
          (FSObject.root false (FSForest.dir ".secret" false
            (FSForest.dir "x" true FSForest.nil FSForest.nil)
            (FSForest.file "a.txt" FSForest.nil)))
        = _scan_folder_recursively (fun _ => true) "/data"
            (FSObject.root false (pruneHidden (FSForest.dir ".secret" false
              (FSForest.dir "x" true FSForest.nil FSForest.nil)
              (FSForest.file "a.txt" FSForest.nil))))) :=
  ⟨by decide,
    scan_prunes_hidden (fun _ => true) "/data"
      (FSForest.dir ".secret" false
        (FSForest.dir "x" true FSForest.nil FSForest.nil)
        (FSForest.file "a.txt" FSForest.nil)) (by decide)⟩

/-! ## `_upload_files_from_folder` -/

/-- A Python `dict[str, str]`-like metadata record, as an association list
in insertion order. -/
abbrev FileMeta := List (String × String)

/-- Python `d.get(k)` / `d[k]` lookup on an association list. -/
def lookupA {α : Type} : List (String × α) → String → Option α
  | [], _ => none
  | (k2, v) :: rest, k => if k2 = k then some v else lookupA rest k

/-- Python `d[k] = v`: replace the value in place if the key exists,
otherwise append the new binding. -/
def setA {α : Type} : List (String × α) → String → α → List (String × α)
  | [], k, v => [(k, v)]
  | (k2, v2) :: rest, k, v =>
      if k2 = k then (k, v) :: rest else (k2, v2) :: setA rest k v

/-- The mutable locals of `_upload_files_from_folder`. -/
structure UploadState where
  file_ids : List String
  file_names : List String
  metadata : List (String × FileMeta)
  logs : List LogEntry
deriving Repr, DecidableEq

/-- One iteration of the upload loop over a scanned
`(full_path, relative_path)` pair.  `save_file full_path relative_path`
models the whole `try` body: opening the file, guessing its MIME type
(defaulting to octet-stream) and calling the external store's
`save_file(content, display_name=os.path.basename(relative_path),
file_origin=FileOrigin.CONNECTOR, file_type=mime_type)`; it returns the
store-assigned `file_id`, or `none` if any of those steps raises — in which
case the file is logged and skipped (`continue`). -/
def uploadStep (save_file : String → String → Option String)
    (st : UploadState) (entry : String × String) : UploadState :=
  let full_path := entry.1
  let relative_path := entry.2
  match save_file full_path relative_path with
  | none =>
      { st with logs := st.logs
          ++ [LogEntry.error ("Failed to upload file '" ++ full_path ++ "'")] }
  | some file_id =>
      { file_ids := st.file_ids ++ [file_id],
        file_names := st.file_names ++ [basename relative_path],
        metadata := setA st.metadata (basename relative_path)
          [("relative_path", relative_path), ("full_path", full_path)],
        logs := st.logs
          ++ [LogEntry.debug ("Uploaded file '" ++ relative_path
            ++ "' with ID '" ++ file_id ++ "'")] }

/-- `_upload_files_from_folder` from the connector: scan the folder (an
exception from the scan propagates), then upload the files one by one,
returning the parallel `file_ids` and `file_names` lists, the metadata
dict keyed by display name, and the accumulated logs. -/
def _upload_files_from_folder (extOk : String → Bool)
    (save_file : String → String → Option String) (folder_path : String)
    (fs : FSObject) : Except String UploadState :=
  match _scan_folder_recursively extOk folder_path fs with
  | (_, Except.error e) => Except.error e
  | (lg, Except.ok files_to_upload) =>
      Except.ok (files_to_upload.foldl (uploadStep save_file)
        ⟨[], [], [], lg⟩)

/-- The successfully saved files, in order: for each the assigned file id
and the scanned `(full_path, relative_path)` pair. -/
def successes (save_file : String → String → Option String)
    (files : List (String × String)) : List (String × String × String) :=
  files.filterMap fun e => (save_file e.1 e.2).map fun fid => (fid, e.1, e.2)

theorem upload_foldl_ids_names (save_file : String → String → Option String) :
    ∀ (files : List (String × String)) (st : UploadState),
      (files.foldl (uploadStep save_file) st).file_ids
          = st.file_ids ++ (successes save_file files).map (fun s => s.1) ∧
      (files.foldl (uploadStep save_file) st).file_names
          = st.file_names ++ (successes save_file files).map (fun s => basename s.2.2) := by
  intro files
  induction files with
  | nil => intro st; simp [successes]
  | cons e rest ih =>
      intro st
      rcases hsave : save_file e.1 e.2 with _ | fid
      · have := ih (uploadStep save_file st e)
        simpa [successes, List.filterMap_cons, hsave, uploadStep] using this
      · have := ih (uploadStep save_file st e)
        simpa [successes, List.filterMap_cons, hsave, uploadStep] using this

theorem upload_foldl_logs_indep (save_file : String → String → Option String) :
    ∀ (files : List (String × String)) (a b : List String)
      (m : List (String × FileMeta)) (lg lg' : List LogEntry),
      ((files.foldl (uploadStep save_file) ⟨a, b, m, lg⟩).file_ids
          = (files.foldl (uploadStep save_file) ⟨a, b, m, lg'⟩).file_ids) ∧
      ((files.foldl (uploadStep save_file) ⟨a, b, m, lg⟩).file_names
          = (files.foldl (uploadStep save_file) ⟨a, b, m, lg'⟩).file_names) ∧
      ((files.foldl (uploadStep save_file) ⟨a, b, m, lg⟩).metadata
          = (files.foldl (uploadStep save_file) ⟨a, b, m, lg'⟩).metadata) := by
  intro files
  induction files with
  | nil => intro a b m lg lg'; exact ⟨rfl, rfl, rfl⟩
  | cons e rest ih =>
      intro a b m lg lg'
      rcases hsave : save_file e.1 e.2 with _ | fid
      · simpa [uploadStep, hsave] using ih a b m (lg
          ++ [LogEntry.error ("Failed to upload file '" ++ e.1 ++ "'")]) (lg'
          ++ [LogEntry.error ("Failed to upload file '" ++ e.1 ++ "'")])
      · simpa [uploadStep, hsave] using
          ih (a ++ [fid]) (b ++ [basename e.2])
            (setA m (basename e.2) [("relative_path", e.2), ("full_path", e.1)])
            (lg ++ [LogEntry.debug ("Uploaded file '" ++ e.2
              ++ "' with ID '" ++ fid ++ "'")])
            (lg' ++ [LogEntry.debug ("Uploaded file '" ++ e.2
              ++ "' with ID '" ++ fid ++ "'")])

theorem upload_foldl_logs_mono (save_file : String → String → Option String) :
    ∀ (files : List (String × String)) (st : UploadState) (x : LogEntry),
      x ∈ st.logs → x ∈ (files.foldl (uploadStep save_file) st).logs := by
  intro files
  induction files with
  | nil => intro st x hx; exact hx
  | cons e rest ih =>
      intro st x hx
      refine ih (uploadStep save_file st e) x ?_
      rcases hsave : save_file e.1 e.2 with _ | fid <;>
        simp [uploadStep, hsave, hx]

/-- C5: if saving one scanned file fails (`save_file` returns `none`,
modelling any exception while opening or storing it), the upload loop logs
the error and skips that file: the resulting `file_ids`, `file_names` and
`metadata` are exactly those of the run on the same list with the failing
file removed — so all files after the failing one are still uploaded and
recorded, the failed file contributes no entry anywhere, and the loop is
never aborted. -/
theorem upload_failure_isolated (save_file : String → String → Option String)
    (full_path relative_path : String) (l1 l2 : List (String × String))
    (st : UploadState) (h : save_file full_path relative_path = none) :
    ((l1 ++ (full_path, relative_path) :: l2).foldl (uploadStep save_file) st).file_ids
        = ((l1 ++ l2).foldl (uploadStep save_file) st).file_ids ∧
    ((l1 ++ (full_path, relative_path) :: l2).foldl (uploadStep save_file) st).file_names
        = ((l1 ++ l2).foldl (uploadStep save_file) st).file_names ∧
    ((l1 ++ (full_path, relative_path) :: l2).foldl (uploadStep save_file) st).metadata
        = ((l1 ++ l2).foldl (uploadStep save_file) st).metadata ∧
    LogEntry.error ("Failed to upload file '" ++ full_path ++ "'")
        ∈ ((l1 ++ (full_path, relative_path) :: l2).foldl (uploadStep save_file) st).logs := by
  have hstep : uploadStep save_file (l1.foldl (uploadStep save_file) st)
      (full_path, relative_path)
      = ⟨(l1.foldl (uploadStep save_file) st).file_ids,
          (l1.foldl (uploadStep save_file) st).file_names,
          (l1.foldl (uploadStep save_file) st).metadata,
          (l1.foldl (uploadStep save_file) st).logs
            ++ [LogEntry.error ("Failed to upload file '" ++ full_path ++ "'")]⟩ := by
    simp [uploadStep, h]
  obtain ⟨hi, hn, hm⟩ := upload_foldl_logs_indep save_file l2
    (l1.foldl (uploadStep save_file) st).file_ids
    (l1.foldl (uploadStep save_file) st).file_names
    (l1.foldl (uploadStep save_file) st).metadata
    ((l1.foldl (uploadStep save_file) st).logs
      ++ [LogEntry.error ("Failed to upload file '" ++ full_path ++ "'")])
    (l1.foldl (uploadStep save_file) st).logs
  simp only [List.foldl_append, List.foldl_cons, hstep]
  refine ⟨hi, hn, hm, ?_⟩
  refine upload_foldl_logs_mono save_file l2 _ _ ?_
  simp

theorem upload_failure_isolated_witness :
    (fun full _ => if full = "/data/x.txt" then none
        else some ("id-" ++ full) : String → String → Option String) "/data/x.txt" "x.txt" = none ∧
    (((([("/data/a.txt", "a.txt")] ++ ("/data/x.txt", "x.txt") :: [("/data/b.txt", "b.txt")]).foldl
          (uploadStep (fun full _ => if full = "/data/x.txt" then none
            else some ("id-" ++ full))) ⟨[], [], [], []⟩).file_ids
        = (([("/data/a.txt", "a.txt")] ++ [("/data/b.txt", "b.txt")]).foldl
          (uploadStep (fun full _ => if full = "/data/x.txt" then none
            else some ("id-" ++ full))) ⟨[], [], [], []⟩).file_ids) ∧
      ((([("/data/a.txt", "a.txt")] ++ ("/data/x.txt", "x.txt") :: [("/data/b.txt", "b.txt")]).foldl
          (uploadStep (fun full _ => if full = "/data/x.txt" then none
            else some ("id-" ++ full))) ⟨[], [], [], []⟩).file_names
        = (([("/data/a.txt", "a.txt")] ++ [("/data/b.txt", "b.txt")]).foldl
          (uploadStep (fun full _ => if full = "/data/x.txt" then none
            else some ("id-" ++ full))) ⟨[], [], [], []⟩).file_names) ∧
      ((([("/data/a.txt", "a.txt")] ++ ("/data/x.txt", "x.txt") :: [("/data/b.txt", "b.txt")]).foldl
          (uploadStep (fun full _ => if full = "/data/x.txt" then none
            else some ("id-" ++ full))) ⟨[], [], [], []⟩).metadata
        = (([("/data/a.txt", "a.txt")] ++ [("/data/b.txt", "b.txt")]).foldl
          (uploadStep (fun full _ => if full = "/data/x.txt" then none
            else some ("id-" ++ full))) ⟨[], [], [], []⟩).metadata) ∧
      LogEntry.error ("Failed to upload file '" ++ "/data/x.txt" ++ "'")
        ∈ ((([("/data/a.txt", "a.txt")] ++ ("/data/x.txt", "x.txt") :: [("/data/b.txt", "b.txt")]).foldl
          (uploadStep (fun full _ => if full = "/data/x.txt" then none
            else some ("id-" ++ full))) ⟨[], [], [], []⟩).logs)) :=
  ⟨by decide,
    upload_failure_isolated
      (fun full _ => if full = "/data/x.txt" then none else some ("id-" ++ full))
      "/data/x.txt" "x.txt" [("/data/a.txt", "a.txt")] [("/data/b.txt", "b.txt")]
      ⟨[], [], [], []⟩ (by decide)⟩

/-- C6: for every successful upload run, `file_ids` and `file_names` have
equal length, and the i-th display name is exactly the basename of the
relative path of the file whose successful save produced the i-th file id
(1:1 correspondence in the same order). -/
theorem upload_ids_names_parallel (extOk : String → Bool)
    (save_file : String → String → Option String) (folder_path : String)
    (fs : FSObject) (st : UploadState)
    (h : _upload_files_from_folder extOk save_file folder_path fs = Except.ok st) :
    st.file_ids.length = st.file_names.length ∧
    ∀ (i : Nat) (fid name : String),
      st.file_ids[i]? = some fid → st.file_names[i]? = some name →
      ∃ full_path relative_path,
        save_file full_path relative_path = some fid ∧
        name = basename relative_path := by
  unfold _upload_files_from_folder at h
  rcases hscan : _scan_folder_recursively extOk folder_path fs with ⟨lg, out⟩
  rw [hscan] at h
  cases out with
  | error e => exact absurd h (by simp)
  | ok files =>
      simp only [Except.ok.injEq] at h
      subst h
      obtain ⟨hi, hn⟩ := upload_foldl_ids_names save_file files ⟨[], [], [], lg⟩
      simp only at hi hn
      constructor
      · rw [hi, hn]; simp
      · intro i fid name hfid hname
        rw [hi] at hfid
        rw [hn] at hname
        simp only [List.nil_append, List.getElem?_map] at hfid hname
        obtain ⟨s, hs, hsfid⟩ := Option.map_eq_some'.mp hfid
        obtain ⟨s2, hs2, hsname⟩ := Option.map_eq_some'.mp hname
        rw [hs] at hs2
        cases hs2
        have hmem : s ∈ successes save_file files := by
          have := List.getElem?_eq_some.mp hs
          obtain ⟨hlt, hget⟩ := this
          exact hget ▸ List.getElem_mem hlt
        obtain ⟨e, _, he⟩ := List.mem_filterMap.mp hmem
        obtain ⟨fid2, hsave2, heq⟩ := Option.map_eq_some'.mp he
        subst heq
        exact ⟨e.1, e.2, by rw [hsave2]; exact congrArg some hsfid, hsname.symm⟩

/-- A run over `/data` containing `a.txt` and `b.md`, with every extension
accepted and a store that assigns `id-` ++ relative path. -/
def extOkW : String → Bool := fun _ => true

def saveW : String → String → Option String := fun _ rel => some ("id-" ++ rel)

def fsTwo : FSObject :=
  FSObject.root false (FSForest.file "a.txt" (FSForest.file "b.md" FSForest.nil))

def uploadStW : UploadState :=
  { file_ids := ["id-a.txt", "id-b.md"],
    file_names := ["a.txt", "b.md"],
    metadata := [("a.txt", [("relative_path", "a.txt"), ("full_path", "/data/a.txt")]),
                 ("b.md", [("relative_path", "b.md"), ("full_path", "/data/b.md")])],
    logs := [LogEntry.info "Scanned folder '/data'",
             LogEntry.debug "Uploaded file 'a.txt' with ID 'id-a.txt'",
             LogEntry.debug "Uploaded file 'b.md' with ID 'id-b.md'"] }

theorem upload_ids_names_parallel_witness :
    _upload_files_from_folder extOkW saveW "/data" fsTwo = Except.ok uploadStW ∧
    (uploadStW.file_ids.length = uploadStW.file_names.length ∧
      ∀ (i : Nat) (fid name : String),
        uploadStW.file_ids[i]? = some fid → uploadStW.file_names[i]? = some name →
        ∃ full_path relative_path,
          saveW full_path relative_path = some fid ∧
          name = basename relative_path) :=
  ⟨rfl, upload_ids_names_parallel extOkW saveW "/data" fsTwo uploadStW rfl⟩

/-! ## `FolderConnector` and `load_from_state` -/

/-- The store's record for a saved file (external, read-only). -/
structure FileRecord where
  display_name : String
  file_type : String
deriving Repr, DecidableEq

/-- `DocumentSource.FOLDER.value` from the external constants module. -/
def DocumentSource_FOLDER : String := "folder"

/-- The connector's configuration state (`__init__` stores `folder_path`
and `batch_size`; `pdf_pass` starts as `None`). -/
structure FolderConnector where
  folder_path : String
  batch_size : Nat
  pdf_pass : Option String
deriving Repr, DecidableEq

/-- `load_credentials`: store `credentials.get("pdf_password")` into
`self.pdf_pass` and return `None`. -/
def load_credentials (conn : FolderConnector)
    (credentials : List (String × String)) :
    FolderConnector × Option (List (String × String)) :=
  ({ conn with pdf_pass := lookupA credentials "pdf_password" }, none)

/-- The external collaborators of one run, as oracles; `Doc` is the opaque
document type produced by extraction.
* `extOk` — `is_accepted_file_ext(get_file_ext(filename), All)`;
* `save_file` — the upload `try` body (open, MIME guess, store save),
  returning the assigned file id or `none` when it raises;
* `read_file_record` / `read_file` — the store's lookups by file id;
* `process_file` — `_process_file(file_id, file_name, file, metadata,
  pdf_pass, file_type)` from the file connector. -/
structure Env (Doc : Type) where
  extOk : String → Bool
  save_file : String → String → Option String
  read_file_record : String → Option FileRecord
  read_file : String → String
  process_file : String → String → String → FileMeta → Option String → String → List Doc

/-- The mutable locals of the phase-2 loop of `load_from_state`. -/
structure BatchState (Doc : Type) where
  documents : List Doc
  batches : List (List Doc)
  logs : List LogEntry

/-- The extraction call for one fetched file record: resolve
`metadata.get(file_record.display_name, {})`, default the
`connector_type` tag to `DocumentSource.FOLDER.value` when absent
(upload-phase metadata takes precedence), read the bytes in binary mode
and call `_process_file`. -/
def extractDocs {Doc : Type} (env : Env Doc) (pdf_pass : Option String)
    (metadata : List (String × FileMeta)) (file_id : String)
    (file_record : FileRecord) : List Doc :=
  let file_metadata := (lookupA metadata file_record.display_name).getD []
  let file_metadata :=
    if (lookupA file_metadata "connector_type").isSome then file_metadata
    else setA file_metadata "connector_type" DocumentSource_FOLDER
  let file_content := env.read_file file_id
  env.process_file file_id file_record.display_name file_content
    file_metadata pdf_pass file_record.file_type

/-- One iteration of the phase-2 loop of `load_from_state` over a
`(file_id, file_name)` pair (the loop body uses the record's
`display_name`, not the zipped `file_name`): fetch the `FileRecord` —
warn and `continue` when absent — otherwise extract documents, extend the
accumulator, and yield it as a completed batch once
`len(documents) >= self.batch_size`. -/
def processPairStep {Doc : Type} (env : Env Doc) (pdf_pass : Option String)
    (batch_size : Nat) (metadata : List (String × FileMeta))
    (st : BatchState Doc) (pair : String × String) : BatchState Doc :=
  match env.read_file_record pair.1 with
  | none =>
      { st with logs := st.logs ++ [LogEntry.warning
          ("No file record found for '" ++ pair.1 ++ "' in PG; skipping.")] }
  | some file_record =>
      let new_docs := extractDocs env pdf_pass metadata pair.1 file_record
      let documents := st.documents ++ new_docs
      if batch_size ≤ documents.length then
        { documents := [], batches := st.batches ++ [documents], logs := st.logs }
      else
        { st with documents := documents }

/-- `load_from_state` of `FolderConnector`: phase 1 scans and uploads (a
scan exception propagates); an empty upload result logs a warning and
yields no batches; phase 2 walks the `(file_id, file_name)` pairs in
order, accumulating extracted documents, yielding a batch whenever the
accumulator reaches `batch_size`, and yielding the non-empty remainder at
the end.  The lazily generated batch sequence is materialized as the
returned list, paired with the accumulated logs. -/
def load_from_state {Doc : Type} (env : Env Doc) (conn : FolderConnector)
    (fs : FSObject) : Except String (List (List Doc) × List LogEntry) :=
  match _upload_files_from_folder env.extOk env.save_file conn.folder_path fs with
  | Except.error e => Except.error e
  | Except.ok up =>
      if up.file_ids = [] then
        Except.ok ([], up.logs ++ [LogEntry.warning
          ("No files found or uploaded from folder '" ++ conn.folder_path ++ "'")])
      else
        let final := (up.file_ids.zip up.file_names).foldl
          (processPairStep env conn.pdf_pass conn.batch_size up.metadata)
          ⟨[], [], up.logs⟩
        Except.ok ((if final.documents.isEmpty then final.batches
          else final.batches ++ [final.documents]), final.logs)

/-- The documents one `(file_id, file_name)` pair contributes: none when
its file record is absent, otherwise the extraction result. -/
def pairDocs {Doc : Type} (env : Env Doc) (pdf_pass : Option String)
    (metadata : List (String × FileMeta)) (pair : String × String) : List Doc :=
  match env.read_file_record pair.1 with
  | none => []
  | some file_record => extractDocs env pdf_pass metadata pair.1 file_record

/-- All documents a run produces, in per-file, per-extraction order. -/
def producedDocs {Doc : Type} (env : Env Doc) (conn : FolderConnector)
    (fs : FSObject) : List Doc :=
  match _upload_files_from_folder env.extOk env.save_file conn.folder_path fs with
  | Except.error _ => []
  | Except.ok up =>
      ((up.file_ids.zip up.file_names).map
        (pairDocs env conn.pdf_pass up.metadata)).flatten

/-- The pure accumulate-and-yield step on (accumulator, emitted batches). -/
def batchStep {Doc : Type} (batch_size : Nat)
    (st : List Doc × List (List Doc)) (new_docs : List Doc) :
    List Doc × List (List Doc) :=
  let documents := st.1 ++ new_docs
  if batch_size ≤ documents.length then ([], st.2 ++ [documents])
  else (documents, st.2)

/-- The warnings phase 2 emits: one per pair whose file record is absent. -/
def phase2Logs {Doc : Type} (env : Env Doc)
    (pairs : List (String × String)) : List LogEntry :=
  pairs.filterMap fun pair =>
    match env.read_file_record pair.1 with
    | none => some (LogEntry.warning
        ("No file record found for '" ++ pair.1 ++ "' in PG; skipping."))
    | some _ => none

/-! ## Batching lemmas -/

theorem batch_foldl_invariant {Doc : Type} (N : Nat) (hN : 1 ≤ N) :
    ∀ (newss : List (List Doc)) (acc : List Doc) (bs : List (List Doc)),
      acc.length < N → (∀ b ∈ bs, N ≤ b.length) →
      ((newss.foldl (batchStep N) (acc, bs)).1.length < N ∧
       (∀ b ∈ (newss.foldl (batchStep N) (acc, bs)).2, N ≤ b.length) ∧
       (newss.foldl (batchStep N) (acc, bs)).2.flatten
           ++ (newss.foldl (batchStep N) (acc, bs)).1
         = bs.flatten ++ acc ++ newss.flatten) := by
  intro newss
  induction newss with
  | nil => intro acc bs ha hb; exact ⟨ha, hb, by simp⟩
  | cons new rest ih =>
      intro acc bs ha hb
      rw [List.foldl_cons]
      by_cases hle : N ≤ (acc ++ new).length
      · have hstep : batchStep N (acc, bs) new = ([], bs ++ [acc ++ new]) := by
          rw [List.length_append] at hle
          simp [batchStep, hle]
        rw [hstep]
        have hmem : ∀ b ∈ bs ++ [acc ++ new], N ≤ b.length := by
          intro b hb2
          rcases List.mem_append.mp hb2 with h2 | h2
          · exact hb b h2
          · rw [List.mem_singleton.mp h2]; exact hle
        have H := ih [] (bs ++ [acc ++ new]) (by simp; omega) hmem
        refine ⟨H.1, H.2.1, ?_⟩
        rw [H.2.2]
        simp [List.append_assoc]
      · rw [List.length_append] at hle
        have hstep : batchStep N (acc, bs) new = (acc ++ new, bs) := by
          simp [batchStep, hle]
        rw [hstep]
        have H := ih (acc ++ new) bs (by rw [List.length_append]; omega) hb
        refine ⟨H.1, H.2.1, ?_⟩
        rw [H.2.2]
        simp [List.append_assoc]

theorem processPairs_eq_batchRun {Doc : Type} (env : Env Doc)
    (pdf_pass : Option String) (N : Nat) (md : List (String × FileMeta))
    (hN : 1 ≤ N) :
    ∀ (pairs : List (String × String)) (d : List Doc) (b : List (List Doc))
      (lg : List LogEntry), d.length < N →
      ((pairs.foldl (processPairStep env pdf_pass N md) ⟨d, b, lg⟩).documents,
       (pairs.foldl (processPairStep env pdf_pass N md) ⟨d, b, lg⟩).batches)
        = (pairs.map (pairDocs env pdf_pass md)).foldl (batchStep N) (d, b) := by
  intro pairs
  induction pairs with
  | nil => intro d b lg _; rfl
  | cons pair rest ih =>
      intro d b lg hd
      rw [List.foldl_cons, List.map_cons, List.foldl_cons]
      rcases hrec : env.read_file_record pair.1 with _ | file_record
      · have hstep : processPairStep env pdf_pass N md ⟨d, b, lg⟩ pair
            = ⟨d, b, lg ++ [LogEntry.warning
                ("No file record found for '" ++ pair.1 ++ "' in PG; skipping.")]⟩ := by
          simp [processPairStep, hrec]
        have hpd : pairDocs env pdf_pass md pair = [] := by
          simp [pairDocs, hrec]
        have hbs : batchStep N (d, b) [] = (d, b) := by
          simp [batchStep, Nat.not_le.mpr hd]
        rw [hstep, hpd, hbs]
        exact ih d b _ hd
      · have hpd : pairDocs env pdf_pass md pair
            = extractDocs env pdf_pass md pair.1 file_record := by
          simp [pairDocs, hrec]
        rw [hpd]
        by_cases hle : N ≤ (d ++ extractDocs env pdf_pass md pair.1 file_record).length
        · rw [List.length_append] at hle
          have hstep : processPairStep env pdf_pass N md ⟨d, b, lg⟩ pair
              = ⟨[], b ++ [d ++ extractDocs env pdf_pass md pair.1 file_record], lg⟩ := by
            simp [processPairStep, hrec, hle]
          have hbs : batchStep N (d, b) (extractDocs env pdf_pass md pair.1 file_record)
              = ([], b ++ [d ++ extractDocs env pdf_pass md pair.1 file_record]) := by
            simp [batchStep, hle]
          rw [hstep, hbs]
          exact ih [] _ lg (by simp; omega)
        · rw [List.length_append] at hle
          have hstep : processPairStep env pdf_pass N md ⟨d, b, lg⟩ pair
              = ⟨d ++ extractDocs env pdf_pass md pair.1 file_record, b, lg⟩ := by
            simp [processPairStep, hrec, hle]
          have hbs : batchStep N (d, b) (extractDocs env pdf_pass md pair.1 file_record)
              = (d ++ extractDocs env pdf_pass md pair.1 file_record, b) := by
            simp [batchStep, hle]
          rw [hstep, hbs]
          exact ih _ b lg (by rw [List.length_append]; omega)

theorem processPairs_docs_batches_indep {Doc : Type} (env : Env Doc)
    (pdf_pass : Option String) (N : Nat) (md : List (String × FileMeta)) :
    ∀ (pairs : List (String × String)) (d : List Doc) (b : List (List Doc))
      (lg lg' : List LogEntry),
      ((pairs.foldl (processPairStep env pdf_pass N md) ⟨d, b, lg⟩).documents
          = (pairs.foldl (processPairStep env pdf_pass N md) ⟨d, b, lg'⟩).documents) ∧
      ((pairs.foldl (processPairStep env pdf_pass N md) ⟨d, b, lg⟩).batches
          = (pairs.foldl (processPairStep env pdf_pass N md) ⟨d, b, lg'⟩).batches) := by
  intro pairs
  induction pairs with
  | nil => intro d b lg lg'; exact ⟨rfl, rfl⟩
  | cons pair rest ih =>
      intro d b lg lg'
      rw [List.foldl_cons, List.foldl_cons]
      rcases hrec : env.read_file_record pair.1 with _ | file_record
      · have h1 : processPairStep env pdf_pass N md ⟨d, b, lg⟩ pair
            = ⟨d, b, lg ++ [LogEntry.warning
                ("No file record found for '" ++ pair.1 ++ "' in PG; skipping.")]⟩ := by
          simp [processPairStep, hrec]
        have h2 : processPairStep env pdf_pass N md ⟨d, b, lg'⟩ pair
            = ⟨d, b, lg' ++ [LogEntry.warning
                ("No file record found for '" ++ pair.1 ++ "' in PG; skipping.")]⟩ := by
          simp [processPairStep, hrec]
        rw [h1, h2]
        exact ih d b _ _
      · by_cases hle : N ≤ (d ++ extractDocs env pdf_pass md pair.1 file_record).length
        · rw [List.length_append] at hle
          have h1 : processPairStep env pdf_pass N md ⟨d, b, lg⟩ pair
              = ⟨[], b ++ [d ++ extractDocs env pdf_pass md pair.1 file_record], lg⟩ := by
            simp [processPairStep, hrec, hle]
          have h2 : processPairStep env pdf_pass N md ⟨d, b, lg'⟩ pair
              = ⟨[], b ++ [d ++ extractDocs env pdf_pass md pair.1 file_record], lg'⟩ := by
            simp [processPairStep, hrec, hle]
          rw [h1, h2]
          exact ih [] _ _ _
        · rw [List.length_append] at hle
          have h1 : processPairStep env pdf_pass N md ⟨d, b, lg⟩ pair
              = ⟨d ++ extractDocs env pdf_pass md pair.1 file_record, b, lg⟩ := by
            simp [processPairStep, hrec, hle]
          have h2 : processPairStep env pdf_pass N md ⟨d, b, lg'⟩ pair
              = ⟨d ++ extractDocs env pdf_pass md pair.1 file_record, b, lg'⟩ := by
            simp [processPairStep, hrec, hle]
          rw [h1, h2]
          exact ih _ b _ _

theorem processPairs_logs {Doc : Type} (env : Env Doc)
    (pdf_pass : Option String) (N : Nat) (md : List (String × FileMeta)) :
    ∀ (pairs : List (String × String)) (st : BatchState Doc),
      (pairs.foldl (processPairStep env pdf_pass N md) st).logs
        = st.logs ++ phase2Logs env pairs := by
  intro pairs
  induction pairs with
  | nil => intro st; simp [phase2Logs]
  | cons pair rest ih =>
      intro st
      rw [List.foldl_cons]
      rcases hrec : env.read_file_record pair.1 with _ | file_record
      · have h1 : processPairStep env pdf_pass N md st pair
            = ⟨st.documents, st.batches, st.logs ++ [LogEntry.warning
                ("No file record found for '" ++ pair.1 ++ "' in PG; skipping.")]⟩ := by
          simp [processPairStep, hrec]
        rw [h1, ih]
        simp [phase2Logs, List.filterMap_cons, hrec]
      · by_cases hle : N ≤ (st.documents ++ extractDocs env pdf_pass md pair.1 file_record).length
        · rw [List.length_append] at hle
          have h1 : processPairStep env pdf_pass N md st pair
              = ⟨[], st.batches ++ [st.documents
                  ++ extractDocs env pdf_pass md pair.1 file_record], st.logs⟩ := by
            simp [processPairStep, hrec, hle]
          rw [h1, ih]
          simp [phase2Logs, List.filterMap_cons, hrec]
        · rw [List.length_append] at hle
          have h1 : processPairStep env pdf_pass N md st pair
              = ⟨st.documents ++ extractDocs env pdf_pass md pair.1 file_record,
                  st.batches, st.logs⟩ := by
            simp [processPairStep, hrec, hle]
          rw [h1, ih]
          simp [phase2Logs, List.filterMap_cons, hrec]

theorem flatten_length_lower {Doc : Type} (N : Nat) :
    ∀ (l : List (List Doc)), l ≠ [] → (∀ b ∈ l.dropLast, N ≤ b.length) →
      (∀ b ∈ l, b ≠ []) → N * (l.length - 1) + 1 ≤ l.flatten.length := by
  intro l
  induction l with
  | nil => intro h; exact absurd rfl h
  | cons b tl ih =>
      intro _ hdrop hne
      cases tl with
      | nil =>
          have hb : b ≠ [] := hne b (List.mem_cons_self b [])
          have : 0 < b.length := List.length_pos.mpr hb
          simpa using this
      | cons c tl2 =>
          have hb : N ≤ b.length := by
            refine hdrop b ?_
            rw [List.dropLast_cons₂]
            exact List.mem_cons_self b _
          have ihh := ih (by simp)
            (fun x hx => hdrop x (by rw [List.dropLast_cons₂]; exact List.mem_cons_of_mem _ hx))
            (fun x hx => hne x (List.mem_cons_of_mem _ hx))
          simp only [List.length_cons, List.flatten_cons, List.length_append,
            Nat.add_sub_cancel] at ihh ⊢
          have hsplit : N * (tl2.length + 1) = N * tl2.length + N := by ring
          rw [hsplit]
          linarith [hb, ihh]

theorem batches_count_le {Doc : Type} (N : Nat) (hN : 1 ≤ N)
    (l : List (List Doc)) (hdrop : ∀ b ∈ l.dropLast, N ≤ b.length)
    (hne : ∀ b ∈ l, b ≠ []) :
    l.length ≤ (l.flatten.length + N - 1) / N := by
  by_cases hl : l = []
  · subst hl; simp
  · have hlow := flatten_length_lower N l hl hdrop hne
    have hk : 1 ≤ l.length := List.length_pos.mpr hl
    have hD1 : 1 ≤ l.flatten.length :=
      le_trans (Nat.le_add_left 1 (N * (l.length - 1))) hlow
    have h1 : N * (l.length - 1) ≤ l.flatten.length - 1 :=
      Nat.le_sub_of_add_le hlow
    have h2 : l.length - 1 ≤ (l.flatten.length - 1) / N := by
      refine (Nat.le_div_iff_mul_le (by omega : 0 < N)).mpr ?_
      calc (l.length - 1) * N = N * (l.length - 1) := Nat.mul_comm _ _
        _ ≤ l.flatten.length - 1 := h1
    have h3 : (l.flatten.length - 1) / N + 1 = (l.flatten.length - 1 + N) / N :=
      (Nat.add_div_right _ (by omega)).symm
    have h4 : l.flatten.length - 1 + N = l.flatten.length + N - 1 := by omega
    calc l.length = (l.length - 1) + 1 := by omega
      _ ≤ (l.flatten.length - 1) / N + 1 := by omega
      _ = (l.flatten.length + N - 1) / N := by rw [h3, h4]

theorem load_from_state_spec {Doc : Type} (env : Env Doc) (conn : FolderConnector)
    (fs : FSObject) (hN : 1 ≤ conn.batch_size) (batches : List (List Doc))
    (lg : List LogEntry) (h : load_from_state env conn fs = Except.ok (batches, lg)) :
    batches.flatten = producedDocs env conn fs ∧
    (∀ b ∈ batches.dropLast, conn.batch_size ≤ b.length) ∧
    (∀ b ∈ batches, b ≠ []) ∧
    batches.length
      ≤ ((producedDocs env conn fs).length + conn.batch_size - 1) / conn.batch_size ∧
    (batches = [] ↔ producedDocs env conn fs = []) := by
  unfold load_from_state at h
  split at h
  next e heq => exact absurd h (by simp)
  next up heq =>
    have hprod : producedDocs env conn fs
        = ((up.file_ids.zip up.file_names).map
          (pairDocs env conn.pdf_pass up.metadata)).flatten := by
      unfold producedDocs
      rw [heq]
    rw [hprod]
    by_cases hids : up.file_ids = []
    · rw [if_pos hids] at h
      simp only [Except.ok.injEq, Prod.mk.injEq] at h
      obtain ⟨hb, -⟩ := h
      subst hb
      rw [hids]
      simp
    · rw [if_neg hids] at h
      simp only [Except.ok.injEq, Prod.mk.injEq] at h
      obtain ⟨hb, -⟩ := h
      have hbridge := processPairs_eq_batchRun env conn.pdf_pass conn.batch_size
        up.metadata hN (up.file_ids.zip up.file_names) [] [] up.logs (by simp; omega)
      have hinv := batch_foldl_invariant conn.batch_size hN
        ((up.file_ids.zip up.file_names).map (pairDocs env conn.pdf_pass up.metadata))
        [] [] (by simp; omega) (by intro b hb2; simp at hb2)
      set pairs := up.file_ids.zip up.file_names with hpairs
      set newss := pairs.map (pairDocs env conn.pdf_pass up.metadata) with hnewss
      set F := pairs.foldl
        (processPairStep env conn.pdf_pass conn.batch_size up.metadata)
        ⟨[], [], up.logs⟩ with hF
      set R := newss.foldl (batchStep conn.batch_size) ([], []) with hR
      obtain ⟨hlen, hmem, hjoin⟩ := hinv
      simp only [List.flatten_nil, List.nil_append] at hjoin
      have hdoc : F.documents = R.1 := congrArg Prod.fst hbridge
      have hbat : F.batches = R.2 := congrArg Prod.snd hbridge
      rw [hdoc, hbat] at hb
      by_cases hacc : R.1.isEmpty
      · rw [if_pos hacc] at hb
        subst hb
        have hacc2 : R.1 = [] := by simpa using hacc
        rw [hacc2, List.append_nil] at hjoin
        refine ⟨hjoin, ?_, ?_, ?_, ?_⟩
        · intro b hb2
          exact hmem b ((List.dropLast_prefix R.2).subset hb2)
        · intro b hb2
          exact List.ne_nil_of_length_pos (by have := hmem b hb2; omega)
        · have hcount := batches_count_le conn.batch_size hN R.2
            (fun b hb2 => hmem b ((List.dropLast_prefix R.2).subset hb2))
            (fun b hb2 => List.ne_nil_of_length_pos (by have := hmem b hb2; omega))
          rw [hjoin] at hcount
          exact hcount
        · constructor
          · intro hR2
            rw [← hjoin, hR2]
            simp
          · intro hflat
            rw [← hjoin] at hflat
            by_contra hne2
            obtain ⟨hd, hhd⟩ := List.exists_mem_of_ne_nil R.2 hne2
            have h1 := hmem hd hhd
            have h2 : hd = [] := (List.flatten_eq_nil_iff.mp hflat) hd hhd
            rw [h2] at h1
            simp at h1
            omega
      · rw [if_neg hacc] at hb
        subst hb
        have hacc2 : R.1 ≠ [] := by simpa using hacc
        have hdropc : ∀ b ∈ (R.2 ++ [R.1]).dropLast, conn.batch_size ≤ b.length := by
          intro b hb2
          rw [List.dropLast_concat] at hb2
          exact hmem b hb2
        have hnec : ∀ b ∈ R.2 ++ [R.1], b ≠ [] := by
          intro b hb2
          rcases List.mem_append.mp hb2 with h2 | h2
          · exact List.ne_nil_of_length_pos (by have := hmem b h2; omega)
          · rw [List.mem_singleton.mp h2]; exact hacc2
        have hje : (R.2 ++ [R.1]).flatten = newss.flatten := by simpa using hjoin
        refine ⟨hje, hdropc, hnec, ?_, ?_⟩
        · have hcount := batches_count_le conn.batch_size hN (R.2 ++ [R.1]) hdropc hnec
          rw [hje] at hcount
          exact hcount
        · constructor
          · intro hcon
            exact absurd hcon (by simp)
          · intro hflat
            exfalso
            rw [← hjoin] at hflat
            have hlen0 : (R.2.flatten ++ R.1).length = 0 := by rw [hflat]; rfl
            simp only [List.length_append, Nat.add_eq_zero] at hlen0
            exact hacc2 (List.eq_nil_of_length_eq_zero hlen0.2)

/-- C1 (amended): for every run of `load_from_state` with
`batch_size = N ≥ 1` and `D` documents produced across all processed
files, concatenating the emitted batches in order reproduces the full
document list in per-file, per-extraction order; every batch except
possibly the last has **at least** `N` documents; the number of batches is
at most `ceil(D/N)`, and is `0` iff `D = 0`.  (The original "exactly `N`
per non-final batch / exactly `ceil(D/N)` batches" fails because the loop
only checks `len(documents) >= batch_size` after appending a whole file's
documents, so a multi-document file can overfill a batch — see the
counterexample.) -/
theorem load_batches_sizing {Doc : Type} (env : Env Doc) (conn : FolderConnector)
    (fs : FSObject) (hN : 1 ≤ conn.batch_size) (batches : List (List Doc))
    (lg : List LogEntry) (h : load_from_state env conn fs = Except.ok (batches, lg)) :
    batches.flatten = producedDocs env conn fs ∧
    (∀ b ∈ batches.dropLast, conn.batch_size ≤ b.length) ∧
    batches.length
      ≤ ((producedDocs env conn fs).length + conn.batch_size - 1) / conn.batch_size ∧
    (batches = [] ↔ producedDocs env conn fs = []) := by
  obtain ⟨h1, h2, h3, h4, h5⟩ := load_from_state_spec env conn fs hN batches lg h
  exact ⟨h1, h2, h4, h5⟩

/-- A single-file tree at `/data`. -/
def fsOne : FSObject := FSObject.root false (FSForest.file "a.txt" FSForest.nil)

/-- A run whose single file extracts to the two documents `[1, 2]`. -/
def envW1 : Env Nat :=
  { extOk := fun _ => true,
    save_file := fun _ rel => some ("id-" ++ rel),
    read_file_record := fun _ => some ⟨"a.txt", "text/plain"⟩,
    read_file := fun _ => "bytes",
    process_file := fun _ _ _ _ _ _ => [1, 2] }

def connW1 : FolderConnector := ⟨"/data", 2, none⟩

def logsW1 : List LogEntry :=
  [LogEntry.info "Scanned folder '/data'",
   LogEntry.debug "Uploaded file 'a.txt' with ID 'id-a.txt'"]

theorem load_batches_sizing_witness :
    1 ≤ connW1.batch_size ∧
    (([[1, 2]] : List (List Nat)).flatten = producedDocs envW1 connW1 fsOne ∧
      (∀ b ∈ ([[1, 2]] : List (List Nat)).dropLast, connW1.batch_size ≤ b.length) ∧
      ([[1, 2]] : List (List Nat)).length
        ≤ ((producedDocs envW1 connW1 fsOne).length + connW1.batch_size - 1)
            / connW1.batch_size ∧
      (([[1, 2]] : List (List Nat)) = [] ↔ producedDocs envW1 connW1 fsOne = [])) :=
  ⟨by decide, load_batches_sizing envW1 connW1 fsOne (by decide) [[1, 2]] logsW1 rfl⟩

/-- Like `envW1` but the single file extracts to three documents. -/
def envC1 : Env Nat :=
  { envW1 with process_file := fun _ _ _ _ _ _ => [1, 2, 3] }

/-- Counterexample to C1 as stated: `batch_size = 2` and `D = 3` documents
produced by one file, yet the run emits one batch `[1, 2, 3]` — not
`ceil(3/2) = 2` batches, and the (only, hence also non-final under the
claim's counting) batch exceeds the batch size. -/
theorem load_batches_sizing_counterexample :
    (load_from_state envC1 connW1 fsOne).map Prod.fst
        = Except.ok ([[1, 2, 3]] : List (List Nat)) ∧
    producedDocs envC1 connW1 fsOne = [1, 2, 3] ∧
    connW1.batch_size = 2 ∧
    ([[1, 2, 3]] : List (List Nat)).length ≠ (3 + 2 - 1) / 2 :=
  ⟨rfl, rfl, rfl, by decide⟩

/-- C8 (amended): when `batch_size ≥ 1`, every batch yielded by
`load_from_state` is non-empty, and yielding zero batches is a valid
outcome (it happens exactly when no documents are produced, in particular
when no files matched).  (The unamended claim fails for `batch_size = 0`,
where `len(documents) >= self.batch_size` holds even for an empty
accumulator — see the counterexample.) -/
theorem load_batches_nonempty {Doc : Type} (env : Env Doc) (conn : FolderConnector)
    (fs : FSObject) (hN : 1 ≤ conn.batch_size) (batches : List (List Doc))
    (lg : List LogEntry) (h : load_from_state env conn fs = Except.ok (batches, lg)) :
    (∀ b ∈ batches, b ≠ []) ∧
    (producedDocs env conn fs = [] → batches = []) := by
  obtain ⟨h1, h2, h3, h4, h5⟩ := load_from_state_spec env conn fs hN batches lg h
  exact ⟨h3, fun hp => h5.mpr hp⟩

theorem load_batches_nonempty_witness :
    1 ≤ connW1.batch_size ∧
    ((∀ b ∈ ([[1, 2]] : List (List Nat)), b ≠ []) ∧
      (producedDocs envW1 connW1 fsOne = [] → ([[1, 2]] : List (List Nat)) = [])) :=
  ⟨by decide, load_batches_nonempty envW1 connW1 fsOne (by decide) [[1, 2]] logsW1 rfl⟩

/-- Like `envW1` but extraction yields no documents. -/
def envC8 : Env Nat :=
  { envW1 with process_file := fun _ _ _ _ _ _ => [] }

def connC8 : FolderConnector := ⟨"/data", 0, none⟩

/-- Counterexample to C8 as stated: with `batch_size = 0` (an `int` the
constructor accepts) and one processed file extracting zero documents, the
run yields the empty list as a batch. -/
theorem load_batches_nonempty_counterexample :
    (load_from_state envC8 connC8 fsOne).map Prod.fst
        = Except.ok ([[]] : List (List Nat)) ∧
    ([] : List Nat) ∈ ([[]] : List (List Nat)) :=
  ⟨rfl, List.mem_singleton.mpr rfl⟩

/-- C9: a `(file_id, file_name)` pair of phase 2 whose `FileRecord` lookup
returns nothing is skipped with a warning: no bytes are fetched, no
extraction is attempted and no document is emitted for it — the
accumulator and the emitted batches are exactly those of the run with the
pair removed — while the remaining pairs are still processed; the loop is
not aborted. -/
theorem missing_record_skipped {Doc : Type} (env : Env Doc) (pdf_pass : Option String)
    (batch_size : Nat) (md : List (String × FileMeta)) (file_id file_name : String)
    (l1 l2 : List (String × String)) (st : BatchState Doc)
    (h : env.read_file_record file_id = none) :
    ((l1 ++ (file_id, file_name) :: l2).foldl
        (processPairStep env pdf_pass batch_size md) st).documents
      = ((l1 ++ l2).foldl (processPairStep env pdf_pass batch_size md) st).documents ∧
    ((l1 ++ (file_id, file_name) :: l2).foldl
        (processPairStep env pdf_pass batch_size md) st).batches
      = ((l1 ++ l2).foldl (processPairStep env pdf_pass batch_size md) st).batches ∧
    LogEntry.warning ("No file record found for '" ++ file_id ++ "' in PG; skipping.")
      ∈ ((l1 ++ (file_id, file_name) :: l2).foldl
        (processPairStep env pdf_pass batch_size md) st).logs := by
  have hstep : processPairStep env pdf_pass batch_size md
      (l1.foldl (processPairStep env pdf_pass batch_size md) st) (file_id, file_name)
      = ⟨(l1.foldl (processPairStep env pdf_pass batch_size md) st).documents,
         (l1.foldl (processPairStep env pdf_pass batch_size md) st).batches,
         (l1.foldl (processPairStep env pdf_pass batch_size md) st).logs
           ++ [LogEntry.warning
              ("No file record found for '" ++ file_id ++ "' in PG; skipping.")]⟩ := by
    simp [processPairStep, h]
  obtain ⟨hd, hb⟩ := processPairs_docs_batches_indep env pdf_pass batch_size md l2
    (l1.foldl (processPairStep env pdf_pass batch_size md) st).documents
    (l1.foldl (processPairStep env pdf_pass batch_size md) st).batches
    ((l1.foldl (processPairStep env pdf_pass batch_size md) st).logs
      ++ [LogEntry.warning
          ("No file record found for '" ++ file_id ++ "' in PG; skipping.")])
    (l1.foldl (processPairStep env pdf_pass batch_size md) st).logs
  simp only [List.foldl_append, List.foldl_cons]
  rw [hstep]
  refine ⟨hd, hb, ?_⟩
  rw [processPairs_logs env pdf_pass batch_size md l2]
  simp

/-- A run whose store knows every file id except `"bad"`. -/
def envC9 : Env Nat :=
  { extOk := fun _ => true,
    save_file := fun _ rel => some rel,
    read_file_record := fun fid =>
      if fid = "bad" then none else some ⟨"a.txt", "text/plain"⟩,
    read_file := fun _ => "bytes",
    process_file := fun _ _ _ _ _ _ => [7] }

theorem missing_record_skipped_witness :
    envC9.read_file_record "bad" = none ∧
    ((([("g1", "a.txt")] ++ ("bad", "a.txt") :: [("g2", "a.txt")]).foldl
          (processPairStep envC9 none 10 []) ⟨[], [], []⟩).documents
        = (([("g1", "a.txt")] ++ [("g2", "a.txt")]).foldl
          (processPairStep envC9 none 10 []) ⟨[], [], []⟩).documents ∧
      (([("g1", "a.txt")] ++ ("bad", "a.txt") :: [("g2", "a.txt")]).foldl
          (processPairStep envC9 none 10 []) ⟨[], [], []⟩).batches
        = (([("g1", "a.txt")] ++ [("g2", "a.txt")]).foldl
          (processPairStep envC9 none 10 []) ⟨[], [], []⟩).batches ∧
      LogEntry.warning ("No file record found for '" ++ "bad" ++ "' in PG; skipping.")
        ∈ (([("g1", "a.txt")] ++ ("bad", "a.txt") :: [("g2", "a.txt")]).foldl
          (processPairStep envC9 none 10 []) ⟨[], [], []⟩).logs) :=
  ⟨rfl, missing_record_skipped envC9 none 10 [] "bad" "a.txt"
    [("g1", "a.txt")] [("g2", "a.txt")] ⟨[], [], []⟩ rfl⟩

/-- C10: `load_credentials` stores the value under key `"pdf_password"`
into `pdf_pass` (so `pdf_pass` is `none` exactly when the key is absent),
always returns `None`, and leaves `folder_path` and `batch_size`
unchanged. -/
theorem load_credentials_spec (conn : FolderConnector)
    (credentials : List (String × String)) :
    (load_credentials conn credentials).1.pdf_pass
        = lookupA credentials "pdf_password" ∧
    (load_credentials conn credentials).2 = none ∧
    (load_credentials conn credentials).1.folder_path = conn.folder_path ∧
    (load_credentials conn credentials).1.batch_size = conn.batch_size :=
  ⟨rfl, rfl, rfl, rfl⟩
